import Mathlib

/-!
Shallow embedding of `plan/05-fix-research-ralph/scripts/new_csmith_findings.py`.

The script scans a reports directory for file names matching the glob
`report-*.md`, extracts ids with `re.search(r'report-(\d{8}-\d{6})\.md$', name)`,
scans the plan document with `re.findall(r'\d{8}-\d{6}', content)` (empty set when
the plan file does not exist), and prints `sorted(report_ids - mentioned_ids)` as a
checklist, or a single "No new findings." line.

File names and file contents are modelled as `List Char`; a possibly missing file
or directory as an `Option`.  The regex class `\d` is modelled as `Char.isDigit`.
Output is modelled as the list of printed lines.
-/

namespace NewCsmith

/-- Whether a character list is exactly of the shape `\d{8}-\d{6}`:
8 digits, a hyphen, 6 digits (the report-identifier shape). -/
def isIdShape (s : List Char) : Bool :=
  s.length == 15 && (s.take 8).all Char.isDigit &&
    (s.drop 8).take 1 == ['-'] && (s.drop 9).all Char.isDigit

/-- The 15-character window of `s` starting at position `i` (shorter near the end). -/
def sub15 (s : List Char) (i : Nat) : List Char :=
  (s.drop i).take 15

/-- The `re.findall` scan, with explicit fuel so that the recursion is structural:
at each position, if the fixed-width pattern matches there, record the
15-character match and resume after it (non-overlapping), otherwise advance one
character.  The fuel never runs out when it starts at the text's length. -/
def findallFuel : Nat → List Char → List String
  | 0, _ => []
  | _ + 1, [] => []
  | fuel + 1, c :: rest =>
    if isIdShape ((c :: rest).take 15) then
      String.mk ((c :: rest).take 15) :: findallFuel fuel ((c :: rest).drop 15)
    else
      findallFuel fuel rest

/-- `re.findall(r'\d{8}-\d{6}', s)`: the left-to-right non-overlapping matches. -/
def findallIds (s : List Char) : List String :=
  findallFuel s.length s

/-- `mentioned_ids`: if the plan file exists, the set of `findall` matches over its
text; if it does not exist (`none`), the empty set, with no error
(`if plan_file.exists(): ...`). -/
def mentioned_ids (plan : Option (List Char)) : Finset String :=
  match plan with
  | none => ∅
  | some content => (findallIds content).toFinset

/-- fnmatch of the glob pattern `report-*.md` against a file name: the name starts
with `report-`, ends with `.md`, and is long enough that the two parts do not
overlap (`*` may match the empty string). -/
def globReportMd (name : List Char) : Bool :=
  name.take 7 == "report-".data && decide (10 ≤ name.length) &&
    name.drop (name.length - 3) == ".md".data

/-- A match of `r'report-(\d{8}-\d{6})\.md$'` at the very end of the name: the last
25 characters are `report-`, then the id shape, then `.md`; returns group 1. -/
def endIdMatch (name : List Char) : Option (List Char) :=
  if 25 ≤ name.length then
    if (name.drop (name.length - 25)).take 7 == "report-".data &&
        isIdShape (((name.drop (name.length - 25)).drop 7).take 15) &&
        (name.drop (name.length - 25)).drop 22 == ".md".data then
      some (((name.drop (name.length - 25)).drop 7).take 15)
    else
      none
  else
    none

/-- `re.search(r'report-(\d{8}-\d{6})\.md$', name)`: in Python `$` matches at the
absolute end of the string, or just before a final newline; the two positions are
mutually exclusive since they require different last characters. -/
def searchIdMatch (name : List Char) : Option (List Char) :=
  match endIdMatch name with
  | some g => some g
  | none =>
    if name.getLast? == some '\n' then endIdMatch name.dropLast else none

/-- The entries yielded by `reports_dir.glob(...)` before pattern filtering: a
missing directory (`none`) yields no entries, since `pathlib` (Python 3.12)
suppresses the `OSError` from scanning a nonexistent directory. -/
def dirEntries (dir : Option (List (List Char))) : List (List Char) :=
  match dir with
  | none => []
  | some es => es

/-- The id contributed by one directory entry: the entry must pass the glob
`report-*.md`, then `re.search` must find an end-anchored `report-<id>.md`;
the contributed identifier is group 1. -/
def addedId (name : List Char) : Option String :=
  if globReportMd name then (searchIdMatch name).map String.mk else none

/-- `report_ids`: the set of ids contributed by the directory entries. -/
def report_ids (dir : Option (List (List Char))) : Finset String :=
  ((dirEntries dir).filterMap addedId).toFinset

/-- `new_ids = sorted(report_ids - mentioned_ids)`: set difference, sorted
ascending in the lexicographic (code-point) string order. -/
def new_ids (dir : Option (List (List Char))) (plan : Option (List Char)) :
    List String :=
  (report_ids dir \ mentioned_ids plan).sort (· ≤ ·)

/-- The lines printed by `main`: a header plus one checklist line per new id when
there are any, otherwise the single line `No new findings.`. -/
def output (dir : Option (List (List Char))) (plan : Option (List Char)) :
    List String :=
  if new_ids dir plan = [] then
    ["No new findings."]
  else
    "New findings not in PLAN.md:" :: (new_ids dir plan).map (fun i => "  - [ ] " ++ i)

/-- The observable file-system state the script touches: the reports directory
(`none` when missing) and the plan file (`none` when missing). -/
structure FS where
  reportsDir : Option (List (List Char))
  planFile : Option (List Char)

/-- A whole run of the script: the source only reads (`glob`, `exists`,
`read_text`) and writes to stdout, so the file-system component is returned
unchanged and the printed lines are a function of the inputs. -/
def run (fs : FS) : FS × List String :=
  (fs, output fs.reportsDir fs.planFile)

/-- The claim C2 reads the pattern as describing the whole name: the name is
exactly `report-<8digits>-<6digits>.md`.  (Stated from the spec's words, for
comparison with `addedId`, which embeds the source.) -/
def specExactReportName (name : List Char) : Bool :=
  name.length == 25 && name.take 7 == "report-".data &&
    isIdShape ((name.drop 7).take 15) && name.drop 22 == ".md".data

/-! ### Helper lemmas -/

lemma isIdShape_length {l : List Char} (h : isIdShape l = true) : l.length = 15 := by
  rw [isIdShape] at h
  simp only [Bool.and_eq_true, beq_iff_eq] at h
  exact h.1.1.1

lemma isIdShape_sub15_of_le {s : List Char} {i : Nat} (h : s.length ≤ i) :
    isIdShape (sub15 s i) = false := by
  rw [sub15, List.drop_eq_nil_of_le h]
  rfl

lemma sub15_cons (c : Char) (rest : List Char) (i : Nat) :
    sub15 (c :: rest) (i + 1) = sub15 rest i := by
  simp [sub15]

lemma sub15_zero (s : List Char) : sub15 s 0 = s.take 15 := by
  simp [sub15]

lemma sub15_drop (s : List Char) (k i : Nat) : sub15 (s.drop k) i = sub15 s (i + k) := by
  rw [sub15, sub15, List.drop_drop, Nat.add_comm]

/-- Soundness of the `findall` scan: every recorded match is a 15-character window
of the text, of the identifier shape. -/
lemma findallFuel_sound :
    ∀ fuel s, s.length ≤ fuel → ∀ t ∈ findallFuel fuel s,
      ∃ i, sub15 s i = t.data ∧ isIdShape t.data = true := by
  intro fuel
  induction fuel with
  | zero =>
    intro s _ t ht
    simp [findallFuel] at ht
  | succ fuel ih =>
    intro s hs t ht
    match s with
    | [] => simp [findallFuel] at ht
    | c :: rest =>
      rw [findallFuel] at ht
      by_cases hc : isIdShape ((c :: rest).take 15) = true
      · rw [if_pos hc] at ht
        rcases List.mem_cons.mp ht with h | h
        · refine ⟨0, ?_, ?_⟩
          · rw [sub15_zero, h]
          · rw [h]; exact hc
        · have hlen : ((c :: rest).drop 15).length ≤ fuel := by
            rw [List.length_drop]
            simp only [List.length_cons] at hs ⊢
            omega
          obtain ⟨i, hi, hsh⟩ := ih _ hlen t h
          exact ⟨i + 15, by rw [← sub15_drop, hi], hsh⟩
      · rw [if_neg hc] at ht
        have hlen : rest.length ≤ fuel := by
          simp only [List.length_cons] at hs
          omega
        obtain ⟨i, hi, hsh⟩ := ih rest hlen t ht
        exact ⟨i + 1, by rw [sub15_cons, hi], hsh⟩

/-- Completeness of the `findall` scan for non-overlapping occurrences: a match of
the pattern at position `i` is recorded whenever every earlier match of the
pattern ends at or before `i` (i.e. nothing overlapping precedes it). -/
lemma findallFuel_complete :
    ∀ fuel s, s.length ≤ fuel → ∀ i,
      isIdShape (sub15 s i) = true →
      (∀ j, j < i → isIdShape (sub15 s j) = true → j + 15 ≤ i) →
      String.mk (sub15 s i) ∈ findallFuel fuel s := by
  intro fuel
  induction fuel with
  | zero =>
    intro s hs i hm _
    have hnil : s = [] := List.length_eq_zero.mp (Nat.le_antisymm hs (Nat.zero_le _))
    rw [hnil, isIdShape_sub15_of_le (by simp)] at hm
    cases hm
  | succ fuel ih =>
    intro s hs i hm hno
    match s with
    | [] =>
      rw [isIdShape_sub15_of_le (by simp)] at hm
      cases hm
    | c :: rest =>
      rw [findallFuel]
      by_cases hc : isIdShape ((c :: rest).take 15) = true
      · rw [if_pos hc]
        match i with
        | 0 =>
          rw [sub15_zero]
          exact List.mem_cons_self _ _
        | i + 1 =>
          have h15 : 15 ≤ i + 1 := by
            have := hno 0 (Nat.succ_pos i) (by rw [sub15_zero]; exact hc)
            omega
          have hlen : ((c :: rest).drop 15).length ≤ fuel := by
            rw [List.length_drop]
            simp only [List.length_cons] at hs ⊢
            omega
          have heq : i + 1 - 15 + 15 = i + 1 := by omega
          have hm' : isIdShape (sub15 ((c :: rest).drop 15) (i + 1 - 15)) = true := by
            rw [sub15_drop, heq]; exact hm
          have hno' : ∀ j, j < i + 1 - 15 →
              isIdShape (sub15 ((c :: rest).drop 15) j) = true → j + 15 ≤ i + 1 - 15 := by
            intro j hj hsj
            rw [sub15_drop] at hsj
            have := hno (j + 15) (by omega) hsj
            omega
          have := ih _ hlen _ hm' hno'
          rw [sub15_drop, heq] at this
          exact List.mem_cons_of_mem _ this
      · rw [if_neg hc]
        match i with
        | 0 =>
          rw [sub15_zero] at hm
          exact absurd hm hc
        | i + 1 =>
          have hlen : rest.length ≤ fuel := by
            simp only [List.length_cons] at hs
            omega
          have hm' : isIdShape (sub15 rest i) = true := by
            rw [← sub15_cons]; exact hm
          have hno' : ∀ j, j < i → isIdShape (sub15 rest j) = true → j + 15 ≤ i := by
            intro j hj hsj
            rw [← sub15_cons c] at hsj
            have := hno (j + 1) (by omega) hsj
            omega
          rw [sub15_cons]
          exact ih rest hlen i hm' hno'

lemma endIdMatch_shape {name g : List Char} (h : endIdMatch name = some g) :
    isIdShape g = true := by
  rw [endIdMatch] at h
  split_ifs at h with h1 h2
  · simp only [Bool.and_eq_true, beq_iff_eq] at h2
    injection h with h
    rw [← h]
    exact h2.1.2

lemma searchIdMatch_shape {name g : List Char} (h : searchIdMatch name = some g) :
    isIdShape g = true := by
  rw [searchIdMatch] at h
  cases hE : endIdMatch name with
  | some g' =>
    rw [hE] at h
    injection h with h
    rw [← h]
    exact endIdMatch_shape hE
  | none =>
    rw [hE] at h
    split_ifs at h with hnl
    exact endIdMatch_shape h

lemma report_ids_shape {dir : Option (List (List Char))} {s : String}
    (h : s ∈ report_ids dir) : isIdShape s.data = true := by
  rw [report_ids, List.mem_toFinset, List.mem_filterMap] at h
  obtain ⟨nm, _, hadd⟩ := h
  rw [addedId] at hadd
  split_ifs at hadd with hg
  rw [Option.map_eq_some'] at hadd
  obtain ⟨g, hsg, rfl⟩ := hadd
  exact searchIdMatch_shape hsg

lemma output_ne_nil (dir : Option (List (List Char))) (plan : Option (List Char)) :
    output dir plan ≠ [] := by
  rw [output]
  split <;> simp

/-! ### Claim theorems -/

/-- Claim C1: for every reports directory and every plan-document text, the program
prints the header `New findings not in PLAN.md:` followed by one line
`  - [ ] <id>` per identifier of `sorted(ReportCollection − MentionedCollection)`
when that difference is non-empty, and the single line `No new findings.` when it
is empty.  (`new_ids` is the ascending sort of the set difference; the first
conjunct characterises its members as exactly that difference.) -/
theorem output_matches_sorted_difference (dir : Option (List (List Char)))
    (plan : Option (List Char)) :
    (∀ s, s ∈ new_ids dir plan ↔ s ∈ report_ids dir ∧ s ∉ mentioned_ids plan) ∧
    (new_ids dir plan ≠ [] →
      output dir plan = "New findings not in PLAN.md:" ::
        (new_ids dir plan).map (fun i => "  - [ ] " ++ i)) ∧
    (new_ids dir plan = [] → output dir plan = ["No new findings."]) := by
  refine ⟨?_, ?_, ?_⟩
  · intro s
    rw [new_ids, Finset.mem_sort, Finset.mem_sdiff]
  · intro h
    rw [output, if_neg h]
  · intro h
    rw [output, if_pos h]

/-- Witness for C1 at a concrete non-empty run: one report file, no plan file. -/
theorem output_matches_sorted_difference_witness :
    new_ids (some ["report-20260301-010101.md".data]) none ≠ [] ∧
    output (some ["report-20260301-010101.md".data]) none =
      "New findings not in PLAN.md:" ::
        (new_ids (some ["report-20260301-010101.md".data]) none).map
          (fun i => "  - [ ] " ++ i) := by
  have hm : "20260301-010101" ∈ new_ids (some ["report-20260301-010101.md".data]) none := by
    rw [new_ids, Finset.mem_sort, Finset.mem_sdiff]
    exact ⟨by decide, by decide⟩
  exact ⟨List.ne_nil_of_mem hm,
    (output_matches_sorted_difference (some ["report-20260301-010101.md".data]) none).2.1
      (List.ne_nil_of_mem hm)⟩

/-- Claim C4: if the plan file does not exist, the mentioned set is empty, with no
error (the operation is total). -/
theorem mentioned_ids_absent_plan : mentioned_ids none = ∅ := rfl

/-- Claim C5: whenever the report set is a subset of the mentioned set (in
particular whenever the report set is empty), the output is exactly the single
line `No new findings.`. -/
theorem subset_no_new_findings (dir : Option (List (List Char)))
    (plan : Option (List Char)) (h : report_ids dir ⊆ mentioned_ids plan) :
    output dir plan = ["No new findings."] := by
  have hd : report_ids dir \ mentioned_ids plan = ∅ :=
    Finset.sdiff_eq_empty_iff_subset.mpr h
  rw [output, new_ids, hd, Finset.sort_empty, if_pos rfl]

/-- Witness for C5 at the spec's scenario: empty directory, absent plan file. -/
theorem subset_no_new_findings_witness :
    report_ids (some []) ⊆ mentioned_ids none ∧
    output (some []) none = ["No new findings."] :=
  ⟨by decide, subset_no_new_findings (some []) none (by decide)⟩

/-- Claim C6: the identifiers of `new_ids` are strictly ascending in the
lexicographic string order (hence duplicate-free), and each is of the shape
`\d{8}-\d{6}`. -/
theorem new_findings_sorted_and_shaped (dir : Option (List (List Char)))
    (plan : Option (List Char)) :
    List.Sorted (· < ·) (new_ids dir plan) ∧
    ∀ s ∈ new_ids dir plan, isIdShape s.data = true := by
  constructor
  · rw [new_ids]
    exact Finset.sort_sorted_lt _
  · intro s hs
    rw [new_ids, Finset.mem_sort, Finset.mem_sdiff] at hs
    exact report_ids_shape hs.1

/-- Witness for C6: a concrete new finding is of the identifier shape. -/
theorem new_findings_sorted_and_shaped_witness :
    "20270101-000000" ∈ new_ids (some ["report-20270101-000000.md".data]) none ∧
    isIdShape "20270101-000000".data = true := by
  have hm : "20270101-000000" ∈ new_ids (some ["report-20270101-000000.md".data]) none := by
    rw [new_ids, Finset.mem_sort, Finset.mem_sdiff]
    exact ⟨by decide, by decide⟩
  exact ⟨hm,
    (new_findings_sorted_and_shaped (some ["report-20270101-000000.md".data]) none).2 _ hm⟩

/-- Claim C9: a run returns the file-system state unchanged (the script only
reads), and running again over the state left by the first run yields the
identical result — determinism and absence of side effects on the inputs. -/
theorem run_read_only_idempotent (fs : FS) :
    (run fs).1 = fs ∧ run (run fs).1 = run fs :=
  ⟨rfl, rfl⟩

/-- Claim C10: when the reports directory does not exist, the run still succeeds:
the report set is empty and, whatever the plan document holds, the output is
exactly `No new findings.`. -/
theorem missing_reports_dir_tolerated (plan : Option (List Char)) :
    report_ids none = ∅ ∧ output none plan = ["No new findings."] := by
  refine ⟨rfl, ?_⟩
  rw [output, new_ids, show report_ids none = ∅ from rfl, Finset.empty_sdiff,
    Finset.sort_empty, if_pos rfl]

/-- Claim C7: with exactly the report files `report-20260205-225448.md` and
`report-20260301-010101.md`, and a plan text whose mentioned set is exactly
`{20260205-225448}`, the output is the header followed by the single checklist
line for `20260301-010101`. -/
theorem scenario_two_reports_one_mentioned (c : List Char)
    (h : mentioned_ids (some c) = {"20260205-225448"}) :
    output (some ["report-20260205-225448.md".data, "report-20260301-010101.md".data])
        (some c) =
      ["New findings not in PLAN.md:", "  - [ ] 20260301-010101"] := by
  have hr : report_ids
      (some ["report-20260205-225448.md".data, "report-20260301-010101.md".data]) =
      {"20260205-225448", "20260301-010101"} := by decide
  have hd : ({"20260205-225448", "20260301-010101"} : Finset String) \
      {"20260205-225448"} = {"20260301-010101"} := by decide
  have hn : new_ids
      (some ["report-20260205-225448.md".data, "report-20260301-010101.md".data])
      (some c) = ["20260301-010101"] := by
    rw [new_ids, hr, h, hd, Finset.sort_singleton]
  rw [output, hn]
  simp

/-- Witness for C7 at a concrete plan text mentioning only the first id. -/
theorem scenario_two_reports_one_mentioned_witness :
    mentioned_ids (some "Done: 20260205-225448.".data) = {"20260205-225448"} ∧
    output (some ["report-20260205-225448.md".data, "report-20260301-010101.md".data])
        (some "Done: 20260205-225448.".data) =
      ["New findings not in PLAN.md:", "  - [ ] 20260301-010101"] :=
  ⟨by decide, scenario_two_reports_one_mentioned "Done: 20260205-225448.".data (by decide)⟩

/-- Claim C8: the run is total on arbitrary input contents — it always prints at
least one line — and a plan text with no occurrence of the pattern contributes no
identifiers (the mentioned set is empty, with no error). -/
theorem run_total_on_malformed (dir : Option (List (List Char)))
    (plan : Option (List Char)) (c : List Char)
    (h : ∀ i, i < c.length → isIdShape (sub15 c i) = false) :
    output dir plan ≠ [] ∧ mentioned_ids (some c) = ∅ := by
  refine ⟨output_ne_nil dir plan, ?_⟩
  rw [Finset.eq_empty_iff_forall_not_mem]
  intro t ht
  rw [mentioned_ids, List.mem_toFinset, findallIds] at ht
  obtain ⟨i, hi, hsh⟩ := findallFuel_sound c.length c le_rfl t ht
  by_cases hlt : i < c.length
  · have hfalse := h i hlt
    rw [hi] at hfalse
    rw [hfalse] at hsh
    cases hsh
  · have hfalse := isIdShape_sub15_of_le (s := c) (i := i) (by omega)
    rw [hi] at hfalse
    rw [hfalse] at hsh
    cases hsh

/-- Witness for C8: a malformed plan text with no pattern occurrence. -/
theorem run_total_on_malformed_witness :
    (∀ i, i < "no ids here".data.length → isIdShape (sub15 "no ids here".data i) = false) ∧
    (output none none ≠ [] ∧ mentioned_ids (some "no ids here".data) = ∅) :=
  ⟨by decide, run_total_on_malformed none none "no ids here".data (by decide)⟩

/-- Claim C3 as stated is false: `re.findall` is non-overlapping, so an occurrence
of the pattern that overlaps an earlier match is not collected.  In the text
`11111111-22222233-444444`, the substring `22222233-444444` occurs (at offset 9)
and is of the shape `\d{8}-\d{6}`, yet it is not in the mentioned set, which is
`{11111111-222222}`. -/
theorem mentioned_unanchored_counterexample :
    sub15 "11111111-22222233-444444".data 9 = "22222233-444444".data ∧
    isIdShape "22222233-444444".data = true ∧
    "22222233-444444" ∉ mentioned_ids (some "11111111-22222233-444444".data) ∧
    mentioned_ids (some "11111111-22222233-444444".data) = {"11111111-222222"} := by
  decide

/-- Claim C3, amended: the mentioned set contains the substring at every
occurrence of `\d{8}-\d{6}` that no earlier overlapping occurrence precedes
(extraction is unanchored and proceeds left to right, non-overlapping); in
particular a timestamp embedded in an unrelated sentence counts as mentioned
whenever nothing overlapping precedes it. -/
theorem mentioned_contains_nonoverlapping_occurrence (c : List Char) (i : Nat)
    (hm : isIdShape (sub15 c i) = true)
    (hno : ∀ j, j < i → isIdShape (sub15 c j) = true → j + 15 ≤ i) :
    String.mk (sub15 c i) ∈ mentioned_ids (some c) := by
  rw [mentioned_ids, List.mem_toFinset, findallIds]
  exact findallFuel_complete c.length c le_rfl i hm hno

/-- Witness for the amended C3: a timestamp embedded inside an unrelated sentence
(at offset 10, with no earlier occurrence) is collected as mentioned. -/
theorem mentioned_contains_nonoverlapping_occurrence_witness :
    isIdShape (sub15 "as noted, 20260205-225448 was fixed".data 10) = true ∧
    String.mk (sub15 "as noted, 20260205-225448 was fixed".data 10) ∈
      mentioned_ids (some "as noted, 20260205-225448 was fixed".data) :=
  ⟨by decide,
    mentioned_contains_nonoverlapping_occurrence "as noted, 20260205-225448 was fixed".data 10
      (by decide) (by decide)⟩

/-- Claim C2 as stated is false: the code's regex is anchored only at the end of
the name, so an entry whose full name is not of the form
`report-<8digits>-<6digits>.md` can still contribute an identifier.  The name
`report-report-20260205-225448.md` passes the glob and the end-anchored search,
so `20260205-225448` is added, although the whole name does not match the
claimed pattern. -/
theorem report_pattern_counterexample :
    addedId "report-report-20260205-225448.md".data = some "20260205-225448" ∧
    "20260205-225448" ∈ report_ids (some ["report-report-20260205-225448.md".data]) ∧
    specExactReportName "report-report-20260205-225448.md".data = false := by
  decide

/-- Claim C2, amended: an identifier `s` is added for a directory entry exactly
when the entry's name begins with `report-` (the glob) and ends with
`report-<s>.md` where `s` is of the shape `<8digits>-<6digits>` (the end-anchored
regex — arbitrary characters may precede that trailing portion); the identifier
added is exactly that trailing `<8digits>-<6digits>` portion. -/
theorem report_id_added_iff (name : List Char) (s : String) :
    addedId name = some s ↔
      name.take 7 = "report-".data ∧
      ∃ pre, name = pre ++ "report-".data ++ s.data ++ ".md".data ∧
        isIdShape s.data = true := by
  have hrd : "report-".data = ['r', 'e', 'p', 'o', 'r', 't', '-'] := rfl
  have hmd : ".md".data = ['.', 'm', 'd'] := rfl
  constructor
  · intro h
    rw [addedId] at h
    split_ifs at h with hg
    have hgm := hg
    rw [globReportMd] at hgm
    simp only [Bool.and_eq_true, beq_iff_eq, decide_eq_true_eq] at hgm
    rw [Option.map_eq_some'] at h
    obtain ⟨g, hsg, hs⟩ := h
    rw [searchIdMatch] at hsg
    cases hE : endIdMatch name with
    | none =>
      simp only [hE] at hsg
      have hlast : name.getLast? = some 'd' := by
        conv_lhs => rw [← List.take_append_drop (name.length - 3) name]
        rw [hgm.2, List.getLast?_append]
        rfl
      rw [hlast] at hsg
      simp at hsg
    | some g' =>
      simp only [hE] at hsg
      injection hsg with hgg
      rw [endIdMatch] at hE
      split_ifs at hE with h25 hcond
      simp only [Bool.and_eq_true, beq_iff_eq] at hcond
      injection hE with hE
      have hg15 : ((name.drop (name.length - 25)).drop 7).take 15 = g := by
        rw [hE, hgg]
      subst hs
      have hdg : (String.mk g).data = g := rfl
      refine ⟨hgm.1.1, name.take (name.length - 25), ?_, ?_⟩
      · rw [hdg, hrd, hmd]
        have e1 : (name.drop (name.length - 25)).drop 7 = g ++ ['.', 'm', 'd'] := by
          calc (name.drop (name.length - 25)).drop 7
              = ((name.drop (name.length - 25)).drop 7).take 15 ++
                ((name.drop (name.length - 25)).drop 7).drop 15 :=
                (List.take_append_drop _ _).symm
            _ = g ++ ((name.drop (name.length - 25)).drop 7).drop 15 := by rw [hg15]
            _ = g ++ (name.drop (name.length - 25)).drop 22 := by rw [List.drop_drop]
            _ = g ++ ['.', 'm', 'd'] := by rw [hcond.2]
        have e2 : name.drop (name.length - 25) =
            ['r', 'e', 'p', 'o', 'r', 't', '-'] ++ (g ++ ['.', 'm', 'd']) := by
          calc name.drop (name.length - 25)
              = (name.drop (name.length - 25)).take 7 ++
                (name.drop (name.length - 25)).drop 7 :=
                (List.take_append_drop _ _).symm
            _ = ['r', 'e', 'p', 'o', 'r', 't', '-'] ++
                (name.drop (name.length - 25)).drop 7 := by rw [hcond.1.1]
            _ = ['r', 'e', 'p', 'o', 'r', 't', '-'] ++ (g ++ ['.', 'm', 'd']) := by rw [e1]
        conv_lhs => rw [← List.take_append_drop (name.length - 25) name]
        rw [e2]
        simp [List.append_assoc]
      · rw [hdg, ← hg15]
        exact hcond.1.2
  · rintro ⟨h7, pre, hname, hshape⟩
    have hlen15 : s.data.length = 15 := isIdShape_length hshape
    have hr7 : ("report-".data).length = 7 := rfl
    have hmd3 : (".md".data).length = 3 := rfl
    have hL : name.length = pre.length + 25 := by
      rw [hname]
      simp only [List.length_append, hr7, hmd3, hlen15]
    have hname' : name = pre ++ ("report-".data ++ (s.data ++ ".md".data)) := by
      rw [hname]
      simp [List.append_assoc]
    have hsuf : name.drop pre.length = "report-".data ++ (s.data ++ ".md".data) := by
      rw [hname']
      exact List.drop_left pre _
    have hA : name.drop (pre.length + 22) = ".md".data := by
      rw [hname]
      refine List.drop_left' ?_
      simp only [List.length_append, hr7, hlen15]
    have hglob : globReportMd name = true := by
      rw [globReportMd]
      simp only [Bool.and_eq_true, beq_iff_eq, decide_eq_true_eq]
      refine ⟨⟨h7, by omega⟩, ?_⟩
      rw [show name.length - 3 = pre.length + 22 from by omega, hA, hmd]
    have t1 : ("report-".data ++ (s.data ++ ".md".data)).take 7 = "report-".data :=
      List.take_left' hr7
    have t2 : ("report-".data ++ (s.data ++ ".md".data)).drop 7 = s.data ++ ".md".data :=
      List.drop_left' hr7
    have t3 : (s.data ++ ".md".data).take 15 = s.data := List.take_left' hlen15
    have t4 : ("report-".data ++ (s.data ++ ".md".data)).drop 22 = ".md".data := by
      rw [← List.append_assoc]
      refine List.drop_left' ?_
      simp only [List.length_append, hr7, hlen15]
    have hend : endIdMatch name = some s.data := by
      rw [endIdMatch, if_pos (show 25 ≤ name.length from by omega),
        show name.length - 25 = pre.length from by omega, hsuf, t1, t2, t3, t4]
      simp [hshape]
    have hsearch : searchIdMatch name = some s.data := by
      rw [searchIdMatch]
      simp only [hend]
    rw [addedId, if_pos hglob, hsearch]
    rfl

end NewCsmith
